import Mathlib

/-!
Shallow embedding of the GreasedLine builder core
(`CreateGreasedLine`, `CompleteGreasedLineWidthTable`,
`CompleteGreasedLineColorTable`) from
`packages/dev/core/src/Meshes/Builders/greasedLineBuilder.ts`.

JavaScript numbers are modelled by `JSVal`: a rational number, `NaN`,
`Infinity`, `-Infinity`, or `undefined` (the value of an out-of-range or
fractional array read).  Array reads, `Math.floor`, `+` and `/` follow the
JavaScript semantics on this domain.  `for (let i = 0; i < N; i++)` loops
with a possibly fractional bound `N` run `max 0 ⌈N⌉` times.
-/

/-- A JavaScript value as it can appear in the width tables: a finite
number, `NaN`, `Infinity`, `-Infinity`, or `undefined`. -/
inductive JSVal where
  | undefined
  | num (q : ℚ)
  | nan
  | inf
  | ninf
deriving DecidableEq, Repr

/-- JavaScript addition on `JSVal` (only numeric operands arise;
`undefined + x` is `NaN` in JavaScript). -/
def jsAdd : JSVal → JSVal → JSVal
  | .num a, .num b => .num (a + b)
  | .undefined, _ => .nan
  | _, .undefined => .nan
  | .nan, _ => .nan
  | _, .nan => .nan
  | .inf, .ninf => .nan
  | .ninf, .inf => .nan
  | .inf, _ => .inf
  | _, .inf => .inf
  | .ninf, _ => .ninf
  | _, .ninf => .ninf

/-- JavaScript `Math.floor`. -/
def jsFloor : JSVal → JSVal
  | .num q => .num ⌊q⌋
  | .nan => .nan
  | .inf => .inf
  | .ninf => .ninf
  | .undefined => .nan

/-- JavaScript division of two finite numbers: division by zero yields
`Infinity`, `-Infinity` or `NaN`, never a fault. -/
def jsDiv (a b : ℚ) : JSVal :=
  if b = 0 then (if a = 0 then .nan else if 0 < a then .inf else .ninf)
  else .num (a / b)

/-- JavaScript array read `a[i]` at a natural index: `undefined` when out
of range. -/
def jsIdxN (a : List JSVal) (i : ℕ) : JSVal := a.getD i .undefined

/-- JavaScript array read `a[q]` at a rational index: `undefined` unless
`q` is a nonnegative integer in range. -/
def jsIdxQ (a : List JSVal) (q : ℚ) : JSVal :=
  if q.den = 1 ∧ 0 ≤ q.num then a.getD q.num.toNat .undefined else .undefined

/-- JavaScript array read where the index is itself a computed `JSVal`
(`a[NaN]`, `a[Infinity]`, `a[undefined]` are all `undefined`). -/
def jsIdxV (a : List JSVal) : JSVal → JSVal
  | .num q => jsIdxQ a q
  | _ => .undefined

/-- JavaScript array read from a typed object array (e.g. `Color3[]`):
`none` models `undefined`. -/
def jsIdxC {α : Type} (a : List α) : JSVal → Option α
  | .num q => if q.den = 1 ∧ 0 ≤ q.num then a.get? q.num.toNat else none
  | _ => none

/-- Number of iterations of `for (let i = 0; i < N; i++)` for a possibly
fractional rational bound `N`. -/
def jsIter (q : ℚ) : ℕ := ⌈q⌉.toNat

/-- `GreasedLineMeshColorDistribution` from the source. -/
inductive GreasedLineMeshColorDistribution where
  | COLOR_DISTRIBUTION_NONE
  | COLOR_DISTRIBUTION_REPEAT
  | COLOR_DISTRIBUTION_EVEN
  | COLOR_DISTRIBUTION_START
  | COLOR_DISTRIBUTION_END
  | COLOR_DISTRIBUTION_START_END
deriving DecidableEq, Repr

/-- `GreasedLineMeshWidthDistribution` from the source. -/
inductive GreasedLineMeshWidthDistribution where
  | WIDTH_DISTRIBUTION_NONE
  | WIDTH_DISTRIBUTION_REPEAT
  | WIDTH_DISTRIBUTION_EVEN
  | WIDTH_DISTRIBUTION_START
  | WIDTH_DISTRIBUTION_END
  | WIDTH_DISTRIBUTION_START_END
deriving DecidableEq, Repr

/-- `missingCount = pointCount - widths.length / 2` (a rational: the width
table may have odd length). -/
def missingWidthCount (pointCount : ℕ) (widths : List JSVal) : ℚ :=
  (pointCount : ℚ) - (widths.length : ℚ) / 2

/-- The `WIDTH_DISTRIBUTION_REPEAT` loop: pushes `widths[i]`, `widths[i+1]`,
advances `i` by two and wraps it to `0` exactly when it equals
`widths.length`. -/
def repeatWidthLoop (widths : List JSVal) : ℕ → ℕ → List JSVal
  | 0, _ => []
  | n + 1, i =>
      jsIdxN widths i :: jsIdxN widths (i + 1) ::
        repeatWidthLoop widths n (if i + 2 = widths.length then 0 else i + 2)

/-- The `WIDTH_DISTRIBUTION_EVEN` loop: `i = Math.floor(j)`, pushes
`widths[i]`, `widths[i+1]`, then `j += widthsectorLength`. -/
def evenWidthLoop (widths : List JSVal) (s : JSVal) : ℕ → JSVal → List JSVal
  | 0, _ => []
  | n + 1, j =>
      jsIdxV widths (jsFloor j) :: jsIdxV widths (jsAdd (jsFloor j) (.num 1)) ::
        evenWidthLoop widths s n (jsAdd j s)

/-- The `COLOR_DISTRIBUTION_REPEAT` loop: pushes `colors[i]`, increments
`i` and wraps it to `0` exactly when it equals `colors.length`. -/
def repeatColorLoop {α : Type} (colors : List α) : ℕ → ℕ → List (Option α)
  | 0, _ => []
  | n + 1, i =>
      colors.get? i ::
        repeatColorLoop colors n (if i + 1 = colors.length then 0 else i + 1)

/-- The `COLOR_DISTRIBUTION_EVEN` loop: `i = Math.floor(j)`, pushes
`colors[i]`, then `j += colorSectorLength`. -/
def evenColorLoop {α : Type} (colors : List α) (s : JSVal) :
    ℕ → JSVal → List (Option α)
  | 0, _ => []
  | n + 1, j =>
      jsIdxC colors (jsFloor j) :: evenColorLoop colors s n (jsAdd j s)

/-- `CompleteGreasedLineWidthTable(pointCount, widths, widthsDistribution,
defaultWidthUpper, defaultWidthLower)` from the source, line by line:
truncates when `missingCount < 0`, copies when `missingCount == 0`, and
otherwise fills by the selected distribution; `WIDTH_DISTRIBUTION_NONE`
matches no branch, leaving `widthsData` empty. -/
def CompleteGreasedLineWidthTable (pointCount : ℕ) (widths : List JSVal)
    (widthsDistribution : GreasedLineMeshWidthDistribution)
    (defaultWidthUpper defaultWidthLower : JSVal) : List JSVal :=
  if missingWidthCount pointCount widths < 0 then
    widths.take (pointCount * 2)
  else if 0 < missingWidthCount pointCount widths then
    match widthsDistribution with
    | .WIDTH_DISTRIBUTION_START_END =>
        ((List.range (widths.length / 2 - 1)).flatMap fun i =>
            [jsIdxN widths (2 * i), jsIdxN widths (2 * i + 1)])
          ++ ((List.range (jsIter (missingWidthCount pointCount widths))).flatMap
                fun _ =>
              [jsIdxQ widths ((widths.length / 2 : ℕ) / 2 + 1),
               jsIdxQ widths ((widths.length / 2 : ℕ) / 2)])
          ++ ((List.range ((widths.length - widths.length / 2 + 1) / 2)).flatMap
                fun t =>
              [jsIdxN widths (widths.length / 2 + 2 * t),
               jsIdxN widths (widths.length / 2 + 2 * t + 1)])
    | .WIDTH_DISTRIBUTION_START =>
        ((List.range ((widths.length + 1) / 2)).flatMap fun t =>
            [jsIdxN widths (2 * t), jsIdxN widths (2 * t + 1)])
          ++ ((List.range (jsIter (missingWidthCount pointCount widths))).flatMap
                fun _ => [defaultWidthUpper, defaultWidthLower])
    | .WIDTH_DISTRIBUTION_END =>
        ((List.range (jsIter (missingWidthCount pointCount widths))).flatMap
            fun _ => [defaultWidthUpper, defaultWidthLower])
          ++ ((List.range ((widths.length + 1) / 2)).flatMap fun t =>
              [jsIdxN widths (2 * t), jsIdxN widths (2 * t + 1)])
    | .WIDTH_DISTRIBUTION_REPEAT => repeatWidthLoop widths pointCount 0
    | .WIDTH_DISTRIBUTION_EVEN =>
        evenWidthLoop widths
          (jsDiv (widths.length : ℚ) (((pointCount : ℚ) - 1) * 2))
          pointCount (.num 0)
    | .WIDTH_DISTRIBUTION_NONE => []
  else
    (List.range widths.length).map fun i => jsIdxN widths i

/-- `CompleteGreasedLineColorTable(pointCount, colors, colorDistribution,
defaultColor)` from the source.  `colors` is a typed object array, so
entries of the result are `Option α` with `none` for `undefined`. -/
def CompleteGreasedLineColorTable {α : Type} (pointCount : ℕ) (colors : List α)
    (colorDistribution : GreasedLineMeshColorDistribution)
    (defaultColor : α) : List (Option α) :=
  if (pointCount : ℤ) - colors.length < 0 then
    (colors.take pointCount).map some
  else if 0 < (pointCount : ℤ) - colors.length then
    match colorDistribution with
    | .COLOR_DISTRIBUTION_START_END =>
        ((List.range (colors.length / 2)).map fun i => colors.get? i)
          ++ List.replicate ((pointCount : ℤ) - colors.length - 1).toNat
              (some defaultColor)
          ++ ((List.range (colors.length - colors.length / 2)).map fun t =>
              colors.get? (colors.length / 2 + t))
    | .COLOR_DISTRIBUTION_START =>
        ((List.range colors.length).map fun i => colors.get? i)
          ++ List.replicate ((pointCount : ℤ) - colors.length).toNat
              (some defaultColor)
    | .COLOR_DISTRIBUTION_END =>
        List.replicate ((pointCount : ℤ) - colors.length - 1).toNat
            (some defaultColor)
          ++ ((List.range colors.length).map fun i => colors.get? i)
    | .COLOR_DISTRIBUTION_REPEAT => repeatColorLoop colors pointCount 0
    | .COLOR_DISTRIBUTION_EVEN =>
        evenColorLoop colors
          (jsDiv (colors.length : ℚ) ((pointCount : ℚ) - 1))
          (pointCount - 1) (.num 0)
    | .COLOR_DISTRIBUTION_NONE =>
        (List.range colors.length).map fun i => colors.get? i
  else
    (List.range pointCount).map fun i => colors.get? i

/-- Kind of material attached to a mesh, as tested by the
`instanceof StandardMaterial || instanceof PBRMaterial` check in
`CreateGreasedLine`. -/
inductive GreasedLineMaterialKind where
  | standard
  | pbr
  | other
  | absent
deriving DecidableEq, Repr

/-- The slice of `GreasedLineMesh` state that `CreateGreasedLine` reads and
writes in Extend mode: `widths` (may be null), the material kind, and the
`greasedLineMaterial` plugin with its `colors` (either may be null). -/
structure GreasedLineInstanceState (α : Type) where
  widths : Option (List JSVal)
  material : GreasedLineMaterialKind
  greasedLineMaterial : Option (Option (List (Option α)))
deriving DecidableEq, Repr

/-- The Extend branch of `CreateGreasedLine` (an `instance` is supplied):
resamples the new batch's widths and colors against the new batch's point
count, appends the widths to the instance's width table, and — only when the
material is a `StandardMaterial` or `PBRMaterial` with a plugin carrying a
non-null color table — concatenates the new colors onto the existing ones
and pushes them via `setColors`.  The second component is the color table
pushed to the material collaborator (`none` when no push happens). -/
def CreateGreasedLineExtend {α : Type} (inst : GreasedLineInstanceState α)
    (pointCount : ℕ) (optWidths : List JSVal)
    (widthDistribution : GreasedLineMeshWidthDistribution)
    (optColors : Option (List α))
    (colorDistribution : GreasedLineMeshColorDistribution)
    (defaultColor : α) :
    GreasedLineInstanceState α × Option (List (Option α)) :=
  let widths := CompleteGreasedLineWidthTable pointCount optWidths
    widthDistribution (.num 1) (.num 1)
  let colors := optColors.map fun cs =>
    CompleteGreasedLineColorTable pointCount cs colorDistribution defaultColor
  let inst1 : GreasedLineInstanceState α :=
    { inst with
      widths := some (match inst.widths with
        | some currentWidths => currentWidths ++ widths
        | none => widths) }
  match colors with
  | none => (inst1, none)
  | some cs =>
    if inst1.material = .standard ∨ inst1.material = .pbr then
      match inst1.greasedLineMaterial with
      | some (some currentColors) =>
          ({ inst1 with greasedLineMaterial := some (some (currentColors ++ cs)) },
           some (currentColors ++ cs))
      | some none => (inst1, none)
      | none => (inst1, none)
    else (inst1, none)

lemma length_flatMap_pair {β : Type} (f g : ℕ → β) (n : ℕ) :
    ((List.range n).flatMap fun i => [f i, g i]).length = 2 * n := by
  induction n with
  | zero => rfl
  | succ n ih =>
      rw [List.range_succ, List.flatMap_append, List.length_append, ih]
      simp [Nat.mul_succ]

lemma length_repeatWidthLoop (widths : List JSVal) (n i : ℕ) :
    (repeatWidthLoop widths n i).length = 2 * n := by
  induction n generalizing i with
  | zero => rfl
  | succ n ih => simp [repeatWidthLoop, ih, Nat.mul_succ]

lemma length_evenWidthLoop (widths : List JSVal) (s : JSVal) (n : ℕ) (j : JSVal) :
    (evenWidthLoop widths s n j).length = 2 * n := by
  induction n generalizing j with
  | zero => rfl
  | succ n ih => simp [evenWidthLoop, ih, Nat.mul_succ]

lemma length_repeatColorLoop {α : Type} (colors : List α) (n i : ℕ) :
    (repeatColorLoop colors n i).length = n := by
  induction n generalizing i with
  | zero => rfl
  | succ n ih => simp [repeatColorLoop, ih]

lemma length_evenColorLoop {α : Type} (colors : List α) (s : JSVal) (n : ℕ)
    (j : JSVal) : (evenColorLoop colors s n j).length = n := by
  induction n generalizing j with
  | zero => rfl
  | succ n ih => simp [evenColorLoop, ih]

lemma map_range_getD {β : Type} (l : List β) (d : β) :
    ((List.range l.length).map fun i => l.getD i d) = l := by
  induction l with
  | nil => rfl
  | cons a t ih =>
      rw [List.length_cons, List.range_succ_eq_map]
      simp only [List.map_cons, List.map_map]
      refine congrArg₂ List.cons rfl ?_
      rw [show (fun i => (a :: t).getD i d) ∘ Nat.succ = fun i => t.getD i d
        from rfl]
      exact ih

lemma map_range_getQmark {β : Type} (l : List β) :
    ((List.range l.length).map fun i => l.get? i) = l.map some := by
  induction l with
  | nil => rfl
  | cons a t ih =>
      rw [List.length_cons, List.range_succ_eq_map]
      simp only [List.map_cons, List.map_map]
      refine congrArg₂ List.cons rfl ?_
      rw [show (fun i => (a :: t).get? i) ∘ Nat.succ = fun i => t.get? i
        from rfl]
      exact ih

lemma missingWidth_neg_iff (pointCount : ℕ) (widths : List JSVal) :
    missingWidthCount pointCount widths < 0 ↔ 2 * pointCount < widths.length := by
  rw [missingWidthCount, sub_neg, lt_div_iff₀ (by norm_num : (0:ℚ) < 2)]
  constructor
  · intro h
    have h2 : ((2 * pointCount : ℕ) : ℚ) < ((widths.length : ℕ) : ℚ) := by
      push_cast; linarith
    exact_mod_cast h2
  · intro h
    have h2 : ((2 * pointCount : ℕ) : ℚ) < ((widths.length : ℕ) : ℚ) := by
      exact_mod_cast h
    push_cast at h2; linarith

lemma missingWidth_pos_iff (pointCount : ℕ) (widths : List JSVal) :
    0 < missingWidthCount pointCount widths ↔ widths.length < 2 * pointCount := by
  rw [missingWidthCount, sub_pos, div_lt_iff₀ (by norm_num : (0:ℚ) < 2)]
  constructor
  · intro h
    have h2 : ((widths.length : ℕ) : ℚ) < ((2 * pointCount : ℕ) : ℚ) := by
      push_cast; linarith
    exact_mod_cast h2
  · intro h
    have h2 : ((widths.length : ℕ) : ℚ) < ((2 * pointCount : ℕ) : ℚ) := by
      exact_mod_cast h
    push_cast at h2; linarith

/-- C5: whenever the width table holds more than `pointCount` pairs
(`missingCount < 0`), `CompleteGreasedLineWidthTable` returns exactly the
first `2 * pointCount` entries of the input, for every distribution policy
and with no interpolation. -/
theorem width_table_truncates (pointCount : ℕ) (widths : List JSVal)
    (wd : GreasedLineMeshWidthDistribution) (du dl : JSVal)
    (h : 2 * pointCount < widths.length) :
    CompleteGreasedLineWidthTable pointCount widths wd du dl
      = widths.take (pointCount * 2) := by
  rw [CompleteGreasedLineWidthTable.eq_def,
    if_pos ((missingWidth_neg_iff pointCount widths).mpr h)]

/-- Witness for C5 at the spec's own example: three pairs supplied for two
points are truncated to `[1, 1, 2, 2]`. -/
theorem width_table_truncates_witness :
    2 * 2 < ([JSVal.num 1, .num 1, .num 2, .num 2, .num 3, .num 3] : List JSVal).length
      ∧ CompleteGreasedLineWidthTable 2
          [JSVal.num 1, .num 1, .num 2, .num 2, .num 3, .num 3]
          .WIDTH_DISTRIBUTION_REPEAT (.num 1) (.num 1)
        = ([JSVal.num 1, .num 1, .num 2, .num 2, .num 3, .num 3] : List JSVal).take (2 * 2) :=
  ⟨by decide, width_table_truncates 2
    [JSVal.num 1, .num 1, .num 2, .num 2, .num 3, .num 3]
    .WIDTH_DISTRIBUTION_REPEAT (.num 1) (.num 1) (by decide)⟩

/-- C6: when the width table already has exactly `2 * pointCount` entries
(`missingCount == 0`), `CompleteGreasedLineWidthTable` returns the input
unchanged, for every distribution policy. -/
theorem width_table_id_when_full (pointCount : ℕ) (widths : List JSVal)
    (wd : GreasedLineMeshWidthDistribution) (du dl : JSVal)
    (h : widths.length = 2 * pointCount) :
    CompleteGreasedLineWidthTable pointCount widths wd du dl = widths := by
  rw [CompleteGreasedLineWidthTable.eq_def,
    if_neg (by rw [missingWidth_neg_iff]; omega),
    if_neg (by rw [missingWidth_pos_iff]; omega)]
  simp only [jsIdxN]
  exact map_range_getD widths .undefined

/-- Witness for C6: a full two-point table is returned as-is. -/
theorem width_table_id_when_full_witness :
    ([JSVal.num 3, .num 4, .num 5, .num 6] : List JSVal).length = 2 * 2
      ∧ CompleteGreasedLineWidthTable 2 [JSVal.num 3, .num 4, .num 5, .num 6]
          .WIDTH_DISTRIBUTION_EVEN (.num 1) (.num 1)
        = [JSVal.num 3, .num 4, .num 5, .num 6] :=
  ⟨by decide, width_table_id_when_full 2 [JSVal.num 3, .num 4, .num 5, .num 6]
    .WIDTH_DISTRIBUTION_EVEN (.num 1) (.num 1) (by decide)⟩

/-- C10: with a genuinely short width table (`missingCount > 0`) the
`WIDTH_DISTRIBUTION_NONE` policy matches no fill branch of
`CompleteGreasedLineWidthTable`, so the function returns the empty list,
not a list of length `2 * pointCount`. -/
theorem width_table_none_empty (pointCount : ℕ) (widths : List JSVal)
    (du dl : JSVal) (h : widths.length < 2 * pointCount) :
    CompleteGreasedLineWidthTable pointCount widths
      .WIDTH_DISTRIBUTION_NONE du dl = [] := by
  rw [CompleteGreasedLineWidthTable,
    if_neg (by rw [missingWidth_neg_iff]; omega),
    if_pos ((missingWidth_pos_iff pointCount widths).mpr h)]

/-- Witness for C10: two points with a one-pair table under `NONE` yield
the empty list (length `0`, not `2 * pointCount = 4`). -/
theorem width_table_none_empty_witness :
    ([JSVal.num 7, .num 7] : List JSVal).length < 2 * 2
      ∧ CompleteGreasedLineWidthTable 2 [JSVal.num 7, .num 7]
          .WIDTH_DISTRIBUTION_NONE (.num 1) (.num 1) = [] :=
  ⟨by decide, width_table_none_empty 2 [JSVal.num 7, .num 7] (.num 1) (.num 1)
    (by decide)⟩

/-- C8: in Extend mode, `CreateGreasedLine` sets the instance width table to
the existing widths followed by the widths resampled for the new batch only
— plain concatenation, never a re-resampling of the combined table. -/
theorem extend_widths_concat {α : Type} (inst : GreasedLineInstanceState α)
    (cur : List JSVal) (pointCount : ℕ) (optWidths : List JSVal)
    (wd : GreasedLineMeshWidthDistribution) (optColors : Option (List α))
    (cd : GreasedLineMeshColorDistribution) (d : α)
    (h : inst.widths = some cur) :
    (CreateGreasedLineExtend inst pointCount optWidths wd optColors cd d).1.widths
      = some (cur ++
          CompleteGreasedLineWidthTable pointCount optWidths wd (.num 1) (.num 1)) := by
  unfold CreateGreasedLineExtend
  rcases optColors with _ | cs
  · simp [h]
  · simp only [Option.map_some']
    split
    · split <;> simp [h]
    · simp [h]

/-- Witness for C8 at the spec's example: widths `[1,1,2,2]` (two points)
extended by one point with widths `[3,3]` become `[1,1,2,2,3,3]`. -/
theorem extend_widths_concat_witness :
    (⟨some [JSVal.num 1, .num 1, .num 2, .num 2], .standard, none⟩ :
        GreasedLineInstanceState ℕ).widths = some [JSVal.num 1, .num 1, .num 2, .num 2]
      ∧ (CreateGreasedLineExtend
          (⟨some [JSVal.num 1, .num 1, .num 2, .num 2], .standard, none⟩ :
            GreasedLineInstanceState ℕ)
          1 [JSVal.num 3, .num 3] .WIDTH_DISTRIBUTION_START none
          .COLOR_DISTRIBUTION_START 0).1.widths
        = some ([JSVal.num 1, .num 1, .num 2, .num 2] ++
            CompleteGreasedLineWidthTable 1 [JSVal.num 3, .num 3]
              .WIDTH_DISTRIBUTION_START (.num 1) (.num 1)) :=
  ⟨rfl, extend_widths_concat
    (⟨some [JSVal.num 1, .num 1, .num 2, .num 2], .standard, none⟩ :
      GreasedLineInstanceState ℕ)
    [JSVal.num 1, .num 1, .num 2, .num 2] 1 [JSVal.num 3, .num 3]
    .WIDTH_DISTRIBUTION_START none .COLOR_DISTRIBUTION_START 0 rfl⟩

/-- C9: in Extend mode with a new color table supplied, when the instance
material is neither a `StandardMaterial` nor a `PBRMaterial` (absent or of
another kind), no color update is pushed to the material collaborator and
the existing color state is unchanged. -/
theorem extend_colors_dropped {α : Type} (inst : GreasedLineInstanceState α)
    (pointCount : ℕ) (optWidths : List JSVal)
    (wd : GreasedLineMeshWidthDistribution) (cs : List α)
    (cd : GreasedLineMeshColorDistribution) (d : α)
    (h1 : inst.material ≠ .standard) (h2 : inst.material ≠ .pbr) :
    (CreateGreasedLineExtend inst pointCount optWidths wd (some cs) cd d).2 = none
      ∧ (CreateGreasedLineExtend inst pointCount optWidths wd (some cs) cd d).1.greasedLineMaterial
        = inst.greasedLineMaterial := by
  unfold CreateGreasedLineExtend
  simp only [Option.map_some']
  rw [if_neg (by simp [h1, h2])]
  exact ⟨rfl, rfl⟩

/-- Witness for C9: an instance with `other` material and an existing plugin
color table drops the new colors: nothing is pushed and the plugin colors
stay as they were. -/
theorem extend_colors_dropped_witness :
    ((⟨some [], .other, some (some [some 5])⟩ : GreasedLineInstanceState ℕ).material
        ≠ .standard)
      ∧ ((⟨some [], .other, some (some [some 5])⟩ : GreasedLineInstanceState ℕ).material
        ≠ .pbr)
      ∧ ((CreateGreasedLineExtend
            (⟨some [], .other, some (some [some 5])⟩ : GreasedLineInstanceState ℕ)
            1 [] .WIDTH_DISTRIBUTION_START (some [9]) .COLOR_DISTRIBUTION_START 0).2
          = none
        ∧ (CreateGreasedLineExtend
            (⟨some [], .other, some (some [some 5])⟩ : GreasedLineInstanceState ℕ)
            1 [] .WIDTH_DISTRIBUTION_START (some [9]) .COLOR_DISTRIBUTION_START 0).1.greasedLineMaterial
          = (⟨some [], .other, some (some [some 5])⟩ : GreasedLineInstanceState ℕ).greasedLineMaterial) :=
  ⟨by decide, by decide, extend_colors_dropped
    (⟨some [], .other, some (some [some 5])⟩ : GreasedLineInstanceState ℕ)
    1 [] .WIDTH_DISTRIBUTION_START [9] .COLOR_DISTRIBUTION_START 0
    (by decide) (by decide)⟩

lemma color_table_end_eq {α : Type} (pointCount : ℕ) (colors : List α) (d : α)
    (h : colors.length < pointCount) :
    CompleteGreasedLineColorTable pointCount colors .COLOR_DISTRIBUTION_END d
      = List.replicate (pointCount - colors.length - 1) (some d)
          ++ colors.map some := by
  rw [CompleteGreasedLineColorTable, if_neg (by omega), if_pos (by omega)]
  rw [show ((pointCount : ℤ) - colors.length - 1).toNat
      = pointCount - colors.length - 1 from by omega]
  rw [map_range_getQmark]

lemma color_table_start_length {α : Type} (pointCount : ℕ) (colors : List α)
    (d : α) (h : colors.length < pointCount) :
    (CompleteGreasedLineColorTable pointCount colors
      .COLOR_DISTRIBUTION_START d).length = pointCount := by
  rw [CompleteGreasedLineColorTable, if_neg (by omega), if_pos (by omega)]
  simp only [List.length_append, List.length_map, List.length_range,
    List.length_replicate]
  omega

lemma color_table_start_end_length {α : Type} (pointCount : ℕ) (colors : List α)
    (d : α) (h : colors.length < pointCount) :
    (CompleteGreasedLineColorTable pointCount colors
      .COLOR_DISTRIBUTION_START_END d).length = pointCount - 1 := by
  rw [CompleteGreasedLineColorTable, if_neg (by omega), if_pos (by omega)]
  simp only [List.length_append, List.length_map, List.length_range,
    List.length_replicate]
  omega

lemma color_table_repeat_length {α : Type} (pointCount : ℕ) (colors : List α)
    (d : α) (h : colors.length < pointCount) :
    (CompleteGreasedLineColorTable pointCount colors
      .COLOR_DISTRIBUTION_REPEAT d).length = pointCount := by
  rw [CompleteGreasedLineColorTable, if_neg (by omega), if_pos (by omega)]
  exact length_repeatColorLoop colors pointCount 0

lemma color_table_even_length {α : Type} (pointCount : ℕ) (colors : List α)
    (d : α) (h : colors.length < pointCount) :
    (CompleteGreasedLineColorTable pointCount colors
      .COLOR_DISTRIBUTION_EVEN d).length = pointCount - 1 := by
  rw [CompleteGreasedLineColorTable, if_neg (by omega), if_pos (by omega)]
  exact length_evenColorLoop colors _ (pointCount - 1) (.num 0)

lemma color_table_length_missing_nonpos {α : Type} (pointCount : ℕ)
    (colors : List α) (cd : GreasedLineMeshColorDistribution) (d : α)
    (h : pointCount ≤ colors.length) :
    (CompleteGreasedLineColorTable pointCount colors cd d).length = pointCount := by
  rcases Nat.lt_or_ge pointCount colors.length with hlt | hge
  · rw [CompleteGreasedLineColorTable.eq_def, if_pos (by omega)]
    simp only [List.length_map, List.length_take]
    omega
  · have heq : pointCount = colors.length := by omega
    rw [CompleteGreasedLineColorTable.eq_def, if_neg (by omega),
      if_neg (by omega)]
    simp

/-- Counterexample to C2 as stated: with a short color table
(`missingCount > 0`) the `END`, `START_END` and `EVEN` policies each return
`pointCount - 1` entries, not `pointCount`. -/
theorem color_table_length_cex :
    (CompleteGreasedLineColorTable 2 [(5 : ℕ)] .COLOR_DISTRIBUTION_END 7).length = 1
      ∧ (CompleteGreasedLineColorTable 4 [(1 : ℕ), 2, 3]
          .COLOR_DISTRIBUTION_START_END 7).length = 3
      ∧ (CompleteGreasedLineColorTable 3 [(5 : ℕ)]
          .COLOR_DISTRIBUTION_EVEN 7).length = 2 := by
  refine ⟨?_, ?_, ?_⟩ <;> decide

/-- C2 amended: for every `pointCount ≥ 0`, colors and policy other than
`NONE`, `CompleteGreasedLineColorTable` returns `pointCount` entries under
`START` and `REPEAT` and whenever `missingCount ≤ 0`; under `END`,
`START_END` and `EVEN` with `missingCount > 0` it returns `pointCount - 1`
entries. -/
theorem color_table_length_amended {α : Type} (pointCount : ℕ)
    (colors : List α) (cd : GreasedLineMeshColorDistribution) (d : α)
    (h : cd ≠ .COLOR_DISTRIBUTION_NONE) :
    (CompleteGreasedLineColorTable pointCount colors cd d).length
      = if colors.length < pointCount
          ∧ (cd = .COLOR_DISTRIBUTION_END ∨ cd = .COLOR_DISTRIBUTION_START_END
              ∨ cd = .COLOR_DISTRIBUTION_EVEN)
        then pointCount - 1 else pointCount := by
  rcases Nat.lt_or_ge colors.length pointCount with hlt | hge
  · cases cd with
    | COLOR_DISTRIBUTION_NONE => exact absurd rfl h
    | COLOR_DISTRIBUTION_REPEAT =>
        rw [if_neg (by rintro ⟨-, h2 | h2 | h2⟩ <;> exact
          GreasedLineMeshColorDistribution.noConfusion h2)]
        exact color_table_repeat_length pointCount colors d hlt
    | COLOR_DISTRIBUTION_START =>
        rw [if_neg (by rintro ⟨-, h2 | h2 | h2⟩ <;> exact
          GreasedLineMeshColorDistribution.noConfusion h2)]
        exact color_table_start_length pointCount colors d hlt
    | COLOR_DISTRIBUTION_END =>
        rw [if_pos ⟨hlt, Or.inl rfl⟩]
        rw [color_table_end_eq pointCount colors d hlt]
        simp only [List.length_append, List.length_map, List.length_replicate]
        omega
    | COLOR_DISTRIBUTION_START_END =>
        rw [if_pos ⟨hlt, Or.inr (Or.inl rfl)⟩]
        exact color_table_start_end_length pointCount colors d hlt
    | COLOR_DISTRIBUTION_EVEN =>
        rw [if_pos ⟨hlt, Or.inr (Or.inr rfl)⟩]
        exact color_table_even_length pointCount colors d hlt
  · rw [if_neg (by rintro ⟨h2, -⟩; omega)]
    exact color_table_length_missing_nonpos pointCount colors cd d hge

/-- Witness for the amended C2: `START` with one color for two points gives
two entries, `END` with one color for two points gives one entry. -/
theorem color_table_length_amended_witness :
    (GreasedLineMeshColorDistribution.COLOR_DISTRIBUTION_END
        ≠ .COLOR_DISTRIBUTION_NONE)
      ∧ (CompleteGreasedLineColorTable 2 [(5 : ℕ)]
            .COLOR_DISTRIBUTION_END 7).length
        = if ([(5 : ℕ)] : List ℕ).length < 2
              ∧ (GreasedLineMeshColorDistribution.COLOR_DISTRIBUTION_END
                    = .COLOR_DISTRIBUTION_END
                  ∨ GreasedLineMeshColorDistribution.COLOR_DISTRIBUTION_END
                    = .COLOR_DISTRIBUTION_START_END
                  ∨ GreasedLineMeshColorDistribution.COLOR_DISTRIBUTION_END
                    = .COLOR_DISTRIBUTION_EVEN)
          then 2 - 1 else 2 :=
  ⟨by decide, color_table_length_amended 2 [(5 : ℕ)]
    .COLOR_DISTRIBUTION_END 7 (by decide)⟩

/-- Counterexample to C3 as stated: for `pointCount = 2` and one existing
color (`missingCount = 1`), the `END` policy does not return one default
entry followed by the existing entry — the head default is missing. -/
theorem color_table_end_cex :
    CompleteGreasedLineColorTable 2 [(5 : ℕ)] .COLOR_DISTRIBUTION_END 7
      ≠ List.replicate 1 (some 7) ++ ([(5 : ℕ)].map some) := by
  decide

/-- C3 amended: with `missingCount = pointCount - colors.length > 0`, the
`END` policy returns `missingCount - 1` copies of the default color followed
by all existing color entries in order. -/
theorem color_table_end_amended {α : Type} (pointCount : ℕ) (colors : List α)
    (d : α) (h : colors.length < pointCount) :
    CompleteGreasedLineColorTable pointCount colors .COLOR_DISTRIBUTION_END d
      = List.replicate (pointCount - colors.length - 1) (some d)
          ++ colors.map some :=
  color_table_end_eq pointCount colors d h

/-- Witness for the amended C3: three points, one color, two (not three)
leading defaults. -/
theorem color_table_end_amended_witness :
    ([(5 : ℕ)] : List ℕ).length < 4
      ∧ CompleteGreasedLineColorTable 4 [(5 : ℕ)] .COLOR_DISTRIBUTION_END 7
        = List.replicate (4 - ([(5 : ℕ)] : List ℕ).length - 1) (some 7)
            ++ ([(5 : ℕ)].map some) :=
  ⟨by decide, color_table_end_amended 4 [(5 : ℕ)] 7 (by decide)⟩

lemma repeatColorLoop_mod {α : Type} (colors : List α)
    (hlen : 0 < colors.length) : ∀ (n i : ℕ), i < colors.length →
    repeatColorLoop colors n i
      = (List.range n).map fun x => colors.get? ((i + x) % colors.length) := by
  intro n
  induction n with
  | zero => intro i _; rfl
  | succ n ih =>
      intro i hi
      rw [repeatColorLoop, List.range_succ_eq_map]
      simp only [List.map_cons, List.map_map]
      refine congrArg₂ List.cons ?_ ?_
      · rw [Nat.add_zero, Nat.mod_eq_of_lt hi]
      · have hi2 : (if i + 1 = colors.length then 0 else i + 1)
            = (i + 1) % colors.length := by
          split
          · rename_i hcase
            rw [hcase, Nat.mod_self]
          · rw [Nat.mod_eq_of_lt (by omega)]
        rw [hi2, ih ((i + 1) % colors.length) (Nat.mod_lt _ hlen)]
        refine List.map_congr_left fun x _ => ?_
        simp only [Function.comp_apply]
        rw [Nat.mod_add_mod]
        exact congrArg (fun m => colors.get? (m % colors.length)) (by omega)

/-- C7: with a non-empty color table and `missingCount > 0`, the `REPEAT`
policy fills all `pointCount` slots by cycling through the existing colors,
wrapping the read index to `0` when it reaches the source length:
slot `x` receives `colors[x % colors.length]`. -/
theorem color_table_repeat_cyclic {α : Type} (pointCount : ℕ)
    (colors : List α) (d : α) (h0 : 0 < colors.length)
    (h : colors.length < pointCount) :
    CompleteGreasedLineColorTable pointCount colors
        .COLOR_DISTRIBUTION_REPEAT d
      = (List.range pointCount).map fun x => colors.get? (x % colors.length) := by
  rw [CompleteGreasedLineColorTable, if_neg (by omega), if_pos (by omega)]
  rw [repeatColorLoop_mod colors h0 pointCount 0 h0]
  simp only [Nat.zero_add]

/-- Witness for C7 at the spec's example: five points over two colors give
`[c0, c1, c0, c1, c0]`. -/
theorem color_table_repeat_cyclic_witness :
    0 < ([(10 : ℕ), 11] : List ℕ).length
      ∧ ([(10 : ℕ), 11] : List ℕ).length < 5
      ∧ CompleteGreasedLineColorTable 5 [(10 : ℕ), 11]
          .COLOR_DISTRIBUTION_REPEAT 7
        = (List.range 5).map fun x => [(10 : ℕ), 11].get? (x % 2) :=
  ⟨by decide, by decide,
    color_table_repeat_cyclic 5 [(10 : ℕ), 11] 7 (by decide) (by decide)⟩

lemma jsIter_missing (pointCount k : ℕ) (widths : List JSVal)
    (hk : widths.length = 2 * k) (h : k < pointCount) :
    jsIter (missingWidthCount pointCount widths) = pointCount - k := by
  have hcast : missingWidthCount pointCount widths
      = (((pointCount : ℤ) - (k : ℤ) : ℤ) : ℚ) := by
    rw [missingWidthCount, hk]; push_cast; ring
  rw [jsIter, hcast, Int.ceil_intCast]
  omega

/-- Counterexample to C1 as stated: the output length differs from
`2 * pointCount` (beyond the noted `EVEN`/`pointCount == 1` edge case) for
`START_END` with three pairs (10 entries for 4 points), for `NONE` with a
short table (0 entries), and for an odd-length table under `START`
(6 entries for 2 points). -/
theorem width_table_length_cex :
    (CompleteGreasedLineWidthTable 4
        [JSVal.num 1, .num 2, .num 3, .num 4, .num 5, .num 6]
        .WIDTH_DISTRIBUTION_START_END (.num 9) (.num 9)).length = 10
      ∧ (CompleteGreasedLineWidthTable 2 [JSVal.num 1, .num 1]
          .WIDTH_DISTRIBUTION_NONE (.num 1) (.num 1)).length = 0
      ∧ (CompleteGreasedLineWidthTable 2 [JSVal.num 1]
          .WIDTH_DISTRIBUTION_START (.num 1) (.num 1)).length = 6 := by
  refine ⟨?_, ?_, ?_⟩
  · have hmc : missingWidthCount 4
        [JSVal.num 1, .num 2, .num 3, .num 4, .num 5, .num 6] = 1 := by
      norm_num [missingWidthCount]
    have hit : jsIter (1 : ℚ) = 1 := by
      rw [jsIter, show (1 : ℚ) = (((1 : ℤ) : ℤ) : ℚ) from by norm_num,
        Int.ceil_intCast]
      rfl
    rw [CompleteGreasedLineWidthTable, hmc, if_neg (by norm_num),
      if_pos (by norm_num), hit]
    decide
  · have hmc : missingWidthCount 2 [JSVal.num 1, .num 1] = 1 := by
      norm_num [missingWidthCount]
    rw [CompleteGreasedLineWidthTable, hmc, if_neg (by norm_num),
      if_pos (by norm_num)]
    rfl
  · have hmc : missingWidthCount 2 [JSVal.num 1] = 3 / 2 := by
      norm_num [missingWidthCount]
    have hceil : ⌈(3 / 2 : ℚ)⌉ = 2 := by
      norm_num [Int.ceil_eq_iff]
    have hit : jsIter (3 / 2 : ℚ) = 2 := by rw [jsIter, hceil]; rfl
    rw [CompleteGreasedLineWidthTable, hmc, if_neg (by norm_num),
      if_pos (by norm_num), hit]
    decide

/-- C1 amended: for every `pointCount ≥ 0` and every even-length width
table, `CompleteGreasedLineWidthTable` returns exactly `2 * pointCount`
entries under the `START`, `END`, `REPEAT` and `EVEN` policies (including
`EVEN` with `pointCount == 1`); the guarantee does not extend to `NONE`,
to `START_END`, or to odd-length tables. -/
theorem width_table_length_amended (pointCount : ℕ) (widths : List JSVal)
    (wd : GreasedLineMeshWidthDistribution) (du dl : JSVal)
    (heven : widths.length % 2 = 0)
    (hpol : wd = .WIDTH_DISTRIBUTION_START ∨ wd = .WIDTH_DISTRIBUTION_END
      ∨ wd = .WIDTH_DISTRIBUTION_REPEAT ∨ wd = .WIDTH_DISTRIBUTION_EVEN) :
    (CompleteGreasedLineWidthTable pointCount widths wd du dl).length
      = 2 * pointCount := by
  obtain ⟨k, hk⟩ : ∃ k, widths.length = 2 * k := ⟨widths.length / 2, by omega⟩
  rcases Nat.lt_or_ge (2 * pointCount) widths.length with hgt | hge
  · rw [CompleteGreasedLineWidthTable.eq_def,
      if_pos ((missingWidth_neg_iff pointCount widths).mpr hgt)]
    simp only [List.length_take]
    omega
  rcases Nat.lt_or_ge widths.length (2 * pointCount) with hlt | hge2
  · have hkpc : k < pointCount := by omega
    have hiter := jsIter_missing pointCount k widths hk hkpc
    rcases hpol with h | h | h | h <;> subst h
    · rw [CompleteGreasedLineWidthTable,
        if_neg (by rw [missingWidth_neg_iff]; omega),
        if_pos ((missingWidth_pos_iff pointCount widths).mpr hlt)]
      rw [List.length_append, length_flatMap_pair, length_flatMap_pair, hiter,
        hk]
      omega
    · rw [CompleteGreasedLineWidthTable,
        if_neg (by rw [missingWidth_neg_iff]; omega),
        if_pos ((missingWidth_pos_iff pointCount widths).mpr hlt)]
      rw [List.length_append, length_flatMap_pair, length_flatMap_pair, hiter,
        hk]
      omega
    · rw [CompleteGreasedLineWidthTable,
        if_neg (by rw [missingWidth_neg_iff]; omega),
        if_pos ((missingWidth_pos_iff pointCount widths).mpr hlt)]
      exact length_repeatWidthLoop widths pointCount 0
    · rw [CompleteGreasedLineWidthTable,
        if_neg (by rw [missingWidth_neg_iff]; omega),
        if_pos ((missingWidth_pos_iff pointCount widths).mpr hlt)]
      exact length_evenWidthLoop widths _ pointCount (.num 0)
  · rw [CompleteGreasedLineWidthTable.eq_def,
      if_neg (by rw [missingWidth_neg_iff]; omega),
      if_neg (by rw [missingWidth_pos_iff]; omega)]
    simp only [List.length_map, List.length_range]
    omega

/-- Witness for the amended C1 (real instance): an even two-entry table for
three points under `EVEN` yields six entries. -/
theorem width_table_length_amended_witness2 :
    ([JSVal.num 5, .num 6] : List JSVal).length % 2 = 0
      ∧ (CompleteGreasedLineWidthTable 3 [JSVal.num 5, .num 6]
          .WIDTH_DISTRIBUTION_EVEN (.num 1) (.num 1)).length = 2 * 3 :=
  ⟨by decide, width_table_length_amended 3 [JSVal.num 5, .num 6]
    .WIDTH_DISTRIBUTION_EVEN (.num 1) (.num 1) (by decide)
    (Or.inr (Or.inr (Or.inr rfl)))⟩

lemma getD_mem_or_undefined (l : List JSVal) (i : ℕ) :
    l.getD i .undefined ∈ l ∨ l.getD i .undefined = .undefined := by
  rcases Nat.lt_or_ge i l.length with h | h
  · left
    rw [List.getD_eq_getElem l _ h]
    exact List.getElem_mem h
  · right
    exact List.getD_eq_default l _ h

lemma getQmark_none_or_mem {α : Type} (l : List α) (i : ℕ) :
    l.get? i = none ∨ ∃ c, l.get? i = some c ∧ c ∈ l := by
  rcases h : l.get? i with _ | c
  · exact Or.inl rfl
  · exact Or.inr ⟨c, rfl, List.get?_mem h⟩

lemma evenWidthLoop_one (widths : List JSVal) (s : JSVal) :
    evenWidthLoop widths s 1 (.num 0) = [jsIdxN widths 0, jsIdxN widths 1] := by
  rw [evenWidthLoop, evenWidthLoop]
  have h0 : jsFloor (.num 0) = .num 0 := by
    rw [jsFloor]
    norm_num
  rw [h0, show jsAdd (.num 0) (.num 1) = .num 1 from by rw [jsAdd]; norm_num]
  rw [show jsIdxV widths (.num 0) = jsIdxQ widths 0 from rfl,
    show jsIdxV widths (.num 1) = jsIdxQ widths 1 from rfl]
  rw [jsIdxQ, jsIdxQ, if_pos (by decide), if_pos (by decide)]
  rfl

/-- C4: for `pointCount == 1` under the `EVEN` policy, neither resampler
faults on the division by zero in its stride computation: each returns a
defined list.  The width result never contains `NaN`, `Infinity` or
`-Infinity` (for numeric input widths), and every color result entry is an
existing color or `undefined`. -/
theorem even_single_point_defined {α : Type} (widths : List JSVal)
    (colors : List α) (du dl : JSVal) (d : α)
    (hw : ∀ v ∈ widths, ∃ q, v = JSVal.num q) :
    (∀ v ∈ CompleteGreasedLineWidthTable 1 widths
        .WIDTH_DISTRIBUTION_EVEN du dl,
      v ≠ .nan ∧ v ≠ .inf ∧ v ≠ .ninf)
      ∧ ∀ o ∈ CompleteGreasedLineColorTable 1 colors
          .COLOR_DISTRIBUTION_EVEN d,
        o = none ∨ ∃ c, o = some c ∧ c ∈ colors := by
  constructor
  · intro v hv
    have hmem : v ∈ widths ∨ v = .undefined := by
      rcases Nat.lt_or_ge 2 widths.length with hgt | hge
      · rw [CompleteGreasedLineWidthTable.eq_def,
          if_pos ((missingWidth_neg_iff 1 widths).mpr (by omega))] at hv
        exact Or.inl (List.take_subset _ _ hv)
      rcases Nat.lt_or_ge widths.length 2 with hlt | hge2
      · rw [CompleteGreasedLineWidthTable,
          if_neg (by rw [missingWidth_neg_iff]; omega),
          if_pos ((missingWidth_pos_iff 1 widths).mpr (by omega)),
          evenWidthLoop_one] at hv
        simp only [List.mem_cons, List.not_mem_nil, or_false] at hv
        rcases hv with rfl | rfl
        · exact getD_mem_or_undefined widths 0
        · exact getD_mem_or_undefined widths 1
      · have hlen : widths.length = 2 := by omega
        rw [CompleteGreasedLineWidthTable.eq_def,
          if_neg (by rw [missingWidth_neg_iff]; omega),
          if_neg (by rw [missingWidth_pos_iff]; omega)] at hv
        rw [show (fun i => jsIdxN widths i) = fun i => widths.getD i .undefined
          from rfl, map_range_getD widths .undefined] at hv
        exact Or.inl hv
    rcases hmem with hmem | rfl
    · obtain ⟨q, rfl⟩ := hw v hmem
      exact ⟨fun h => JSVal.noConfusion h, fun h => JSVal.noConfusion h,
        fun h => JSVal.noConfusion h⟩
    · exact ⟨fun h => JSVal.noConfusion h, fun h => JSVal.noConfusion h,
        fun h => JSVal.noConfusion h⟩
  · intro o ho
    rcases Nat.lt_or_ge 1 colors.length with hgt | hge
    · rw [CompleteGreasedLineColorTable.eq_def, if_pos (by omega)] at ho
      obtain ⟨c, hc, rfl⟩ := List.mem_map.mp ho
      exact Or.inr ⟨c, rfl, List.take_subset _ _ hc⟩
    rcases Nat.lt_or_ge colors.length 1 with hlt | hge2
    · rw [CompleteGreasedLineColorTable,
        if_neg (by omega), if_pos (by omega)] at ho
      have h0 : colors.length = 0 := by omega
      rw [show (1 : ℕ) - 1 = 0 from rfl] at ho
      cases ho
    · rw [CompleteGreasedLineColorTable.eq_def,
        if_neg (by omega), if_neg (by omega)] at ho
      obtain ⟨i, _, rfl⟩ := List.mem_map.mp ho
      exact getQmark_none_or_mem colors i

/-- Witness for C4: one point, one width entry `5`, one color `3`: the width
result is free of `NaN`/`Infinity` and each color entry comes from the
input. -/
theorem even_single_point_defined_witness :
    (∀ v ∈ ([JSVal.num 5] : List JSVal), ∃ q, v = JSVal.num q)
      ∧ ((∀ v ∈ CompleteGreasedLineWidthTable 1 [JSVal.num 5]
            .WIDTH_DISTRIBUTION_EVEN (.num 1) (.num 1),
          v ≠ .nan ∧ v ≠ .inf ∧ v ≠ .ninf)
        ∧ ∀ o ∈ CompleteGreasedLineColorTable 1 [(3 : ℕ)]
            .COLOR_DISTRIBUTION_EVEN 7,
          o = none ∨ ∃ c, o = some c ∧ c ∈ [(3 : ℕ)]) :=
  ⟨fun _ hv => ⟨5, List.mem_singleton.mp hv⟩,
    even_single_point_defined [JSVal.num 5] [(3 : ℕ)] (.num 1) (.num 1) 7
      fun _ hv => ⟨5, List.mem_singleton.mp hv⟩⟩
